import Mathlib

/-!
Shallow embedding of the conversational car-recommendation pipeline
(`backend/main.py`, `backend/rag/chain.py`, `backend/rag/retriever.py`,
`backend/rag/query_parser.py`, `backend/rag/query_understanding.py`,
`backend/rag/query_expansion.py`, `backend/rag/refiner.py`).

External effects (language-model calls, embedding, vector search) are
modelled as explicit function parameters; Python exceptions are modelled
with `Except`; Python dicts holding filter values are association lists
with unique keys; machine floats are modelled as rationals.
-/

set_option maxRecDepth 4096

namespace AutoAssist

/-! ### Python-style character-list string helpers

Python `str.lower()`, `str.strip()`, `str.replace("_", " ")`, `str.find`
and `str.rfind` are modelled over `List Char` so that every operation is
kernel-executable. -/

/-- Python `s.lower()` on a character list. -/
def lowerCl (l : List Char) : List Char := l.map Char.toLower

/-- Python `s.strip()` on a character list: drop whitespace at both ends. -/
def trimCl (l : List Char) : List Char :=
  ((l.dropWhile Char.isWhitespace).reverse.dropWhile Char.isWhitespace).reverse

/-- Python `s.replace("_", " ")` for the single-character pattern used in
`chain.py` (`make.replace("_", " ")`). -/
def underscoreToSpace (l : List Char) : List Char :=
  l.map (fun c => if c = '_' then ' ' else c)

/-- Python `needle in hay` substring test on character lists. -/
def containsCl (needle hay : List Char) : Bool :=
  decide (needle <:+: hay)

/-- Index of the first occurrence of a character (Python `str.find`,
meaningful when the character is present). -/
def idxOf : List Char → Char → Nat
  | [], _ => 0
  | c :: rest, t => if c = t then 0 else idxOf rest t + 1

/-! ### Filter values (Python dict values) -/

/-- A scalar Python value stored in a filter or metadata dict. -/
inductive FScalar where
  | num (q : ℚ)
  | str (s : String)
  | bool (b : Bool)
  | none
deriving DecidableEq, Repr

/-- A Python value stored in a filter dict: a scalar or a list of scalars
(`build_qdrant_filter` handles list-valued fields). -/
inductive FVal where
  | scalar (s : FScalar)
  | list (l : List FScalar)
deriving DecidableEq, Repr

/-- Python truthiness of a scalar: `0`, `""`, `False` and `None` are falsy. -/
def truthyS : FScalar → Bool
  | .num q => decide (q ≠ 0)
  | .str s => decide (s ≠ "")
  | .bool b => b
  | .none => false

/-- Python truthiness of a dict value: a list is truthy iff non-empty. -/
def truthy : FVal → Bool
  | .scalar s => truthyS s
  | .list l => !l.isEmpty

/-- Python `str(value)` for the scalar values reaching `MatchValue`. -/
def pyStrS : FScalar → String
  | .num q => toString q
  | .str s => s
  | .bool b => if b then "True" else "False"
  | .none => "None"

/-- Python `float(value)` for the numeric values reaching `Range`
(numeric and boolean payloads; other types would raise in the source and
are not modelled by any claim). -/
def fvalFloat : FVal → ℚ
  | .scalar (.num q) => q
  | .scalar (.bool b) => if b then 1 else 0
  | _ => 0

/-- Python `int(value)` (truncation toward zero) for `year`/`airbags`. -/
def fvalInt : FVal → Int
  | .scalar (.num q) => Int.tdiv q.num q.den
  | .scalar (.bool b) => if b then 1 else 0
  | _ => 0

/-! ### Python dicts (association lists with unique keys) -/

/-- A Python dict with string keys, in insertion order. -/
abbrev PyDict : Type := List (String × FVal)

/-- Python `d.get(key)` / `d[key]`: value of the first (only) binding. -/
def dictGet : PyDict → String → Option FVal
  | [], _ => Option.none
  | (k, v) :: rest, key => if k = key then some v else dictGet rest key

/-- Python `d[key] = v`: replace the value in place if the key exists,
otherwise append the new binding. -/
def setItem : PyDict → String → FVal → PyDict
  | [], key, v => [(key, v)]
  | (k, w) :: rest, key, v =>
    if k = key then (k, v) :: rest else (k, w) :: setItem rest key v

/-- Python `d.update(other)`: set each binding of `other` in order
(`main.py`: `final_filters = auto_filters.copy(); final_filters.update(request.filters)`). -/
def pyUpdate (d other : PyDict) : PyDict :=
  other.foldl (fun acc kv => setItem acc kv.1 kv.2) d

/-- Model of `query_parser.merge_filters`: return `auto_filters` when
`manual_filters` is falsy, otherwise copy-and-update. -/
def mergeFilters (autoFilters : PyDict) (manualFilters : Option PyDict) : PyDict :=
  match manualFilters with
  | Option.none => autoFilters
  | some m => if m.isEmpty then autoFilters else pyUpdate autoFilters m

/-- First-defined choice on optional lookups: the value of `a` when
present, otherwise `b` (the observable effect of dict `update` on one key). -/
def optOr (a b : Option FVal) : Option FVal :=
  match a with
  | some v => some v
  | Option.none => b

/-- Python `a or b` on two `get` results (first operand when truthy). -/
def pyOr (a b : Option FVal) : Option FVal :=
  match a with
  | some v => if truthy v then some v else b
  | Option.none => b

/-! ### `retriever.build_qdrant_filter` -/

/-- One Qdrant `FieldCondition` as built by `build_qdrant_filter`. -/
inductive QCondition where
  | rangeLte (key : String) (v : ℚ)
  | rangeGte (key : String) (v : ℚ)
  | matchStr (key : String) (v : String)
  | matchBool (key : String) (v : Bool)
deriving DecidableEq, Repr

/-- Collapse a list-valued field to its first element
(`value = value[0] if value else None` under `isinstance(value, list)`);
a scalar passes through unchanged. -/
def collapseList : FVal → FScalar
  | .scalar s => s
  | .list [] => .none
  | .list (x :: _) => x

/-- Equality-matched fields of `build_qdrant_filter`: present, truthy,
collapse a list to its first element, re-test truthiness, then match on
`str(value)`. -/
def matchCondsFor (filters : PyDict) (key : String) : List QCondition :=
  match dictGet filters key with
  | some v =>
    if truthy v then
      let c := collapseList v
      if truthyS c then [QCondition.matchStr key (pyStrS c)] else []
    else []
  | Option.none => []

/-- The boolean feature flags of `build_qdrant_filter` (the source maps
each filter key to an identical payload field key). -/
def boolFilterKeys : List String :=
  ["abs", "esc", "sunroof", "cruise_control", "apple_carplay",
   "adaptive_cruise", "lane_keep_assist", "parking_camera",
   "keyless_entry", "connected_tech"]

/-- The `conditions` list accumulated by `build_qdrant_filter`, in the
source's append order. -/
def qdrantConditions (filters : PyDict) : List QCondition :=
  let priceMax := pyOr (dictGet filters "price_max") (dictGet filters "price_lakhs_max")
    let priceMin := pyOr (dictGet filters "price_min") (dictGet filters "price_lakhs_min")
    let priceMaxConds :=
      match priceMax with
      | some v => if truthy v then [QCondition.rangeLte "price_lakhs" (fvalFloat v)] else []
      | Option.none => []
    let priceMinConds :=
      match priceMin with
      | some v => if truthy v then [QCondition.rangeGte "price_lakhs" (fvalFloat v)] else []
      | Option.none => []
    let yearMinConds :=
      match dictGet filters "year_min" with
      | some v => [QCondition.rangeGte "year" ((fvalInt v : ℚ))]
      | Option.none => []
    let yearMaxConds :=
      match dictGet filters "year_max" with
      | some v => [QCondition.rangeLte "year" ((fvalInt v : ℚ))]
      | Option.none => []
    let mileageConds :=
      match dictGet filters "mileage_min" with
      | some v => [QCondition.rangeGte "mileage" (fvalFloat v)]
      | Option.none => []
    let powerConds :=
      match dictGet filters "power_bhp_min" with
      | some v => [QCondition.rangeGte "power_bhp" (fvalFloat v)]
      | Option.none => []
    let airbagsConds :=
      match dictGet filters "airbags_min" with
      | some v => [QCondition.rangeGte "airbags" ((fvalInt v : ℚ))]
      | Option.none => []
    let boolConds :=
      (boolFilterKeys.map (fun k =>
        match dictGet filters k with
        | some v => if truthy v then [QCondition.matchBool k true] else []
        | Option.none => [])).flatten
    priceMaxConds ++ priceMinConds ++
    matchCondsFor filters "body_type" ++
    matchCondsFor filters "fuel_type" ++
    matchCondsFor filters "segment" ++
    yearMinConds ++ yearMaxConds ++ mileageConds ++ powerConds ++
    matchCondsFor filters "transmission_type" ++
    airbagsConds ++ boolConds

/-- Model of `retriever.build_qdrant_filter`: translate a filter dict into an AND
of range/equality/boolean conditions; `None` when the dict is falsy or no
conditions were produced. -/
def buildQdrantFilter (filters : PyDict) : Option (List QCondition) :=
  if filters.isEmpty then Option.none
  else if (qdrantConditions filters).isEmpty then Option.none
  else some (qdrantConditions filters)

/-- Every filter key `build_qdrant_filter` inspects; any other key in the
dict is ignored (no condition, no implicit wildcard). -/
def recognizedFilterKeys : List String :=
  ["price_max", "price_lakhs_max", "price_min", "price_lakhs_min",
   "body_type", "fuel_type", "segment", "year_min", "year_max",
   "mileage_min", "power_bhp_min", "transmission_type", "airbags_min"] ++
  boolFilterKeys

/-! ### `CustomQdrantRetriever._get_relevant_documents` -/

/-- The substring test the retriever applies to a search-layer error
message to decide that the predicate referenced an unindexed field
(`"Index required" in error_msg or "not found" in error_msg.lower()`). -/
def isUnindexedSignal (msg : String) : Bool :=
  containsCl "Index required".toList msg.toList ||
  containsCl "not found".toList (lowerCl msg.toList)

/-- Model of the `_get_relevant_documents` error handling: run the search with the
stored predicate; on an unindexed-field signal retry exactly once with the
predicate removed; re-raise any other error (and any error of the retry). -/
def getRelevantPoints {α : Type} (searchFn : Option (List QCondition) → Except String α)
    (qdrantFilter : Option (List QCondition)) : Except String α :=
  match searchFn qdrantFilter with
  | .ok r => .ok r
  | .error e => if isUnindexedSignal e then searchFn Option.none else .error e

/-! ### `chain.query_chain` deduplication -/

/-- The fixed attribute schema of a retrieved catalog record (spec section 6). -/
structure CarMeta where
  id : Option String := Option.none
  make : Option String := Option.none
  model : Option String := Option.none
  variant : Option String := Option.none
  year : Option Int := Option.none
  body_type : Option String := Option.none
  segment : Option String := Option.none
  fuel_type : Option String := Option.none
  price_lakhs : Option ℚ := Option.none
  mileage : Option ℚ := Option.none
  power_bhp : Option ℚ := Option.none
  airbags : Option Int := Option.none
  transmission_type : Option String := Option.none
deriving DecidableEq, Repr

/-- A retrieved document: text content, attribute map, optional score. -/
structure CarDoc where
  page_content : String := ""
  metadata : CarMeta := {}
  score : Option ℚ := Option.none
deriving DecidableEq, Repr

/-- One `car_info` record built by `query_chain` for the frontend. -/
structure CarInfo where
  id : String
  name : String
  make : String
  model : String
  price : ℚ
  mileage : ℚ
  variant : Option String
  year : Option Int
  body_type : Option String
  segment : Option String
  fuel_type : Option String
  power_bhp : Option ℚ
  airbags : Option Int
  transmission_type : Option String
  score : Option ℚ
deriving DecidableEq, Repr

/-- The `query_chain` name cleanup: `name.replace("_", " ").strip().lower()`. -/
def cleanName (s : String) : List Char :=
  lowerCl (trimCl (underscoreToSpace s.toList))

/-- The canonical dedup key `f"{make_clean}|{model_clean}"`, with the
`"Unknown"` defaults of `metadata.get("make", "Unknown")`. -/
def docKey (d : CarDoc) : List Char :=
  cleanName (d.metadata.make.getD "Unknown") ++ '|' :: cleanName (d.metadata.model.getD "Unknown")

/-- The dedup loop of `query_chain`: skip a document whose key is in
`seen_models`, otherwise keep it and record its key. -/
def dedupDocs (seen : List (List Char)) : List CarDoc → List CarDoc
  | [] => []
  | d :: rest =>
    if docKey d ∈ seen then dedupDocs seen rest
    else d :: dedupDocs (docKey d :: seen) rest

/-- The `car_info` dict built by `query_chain` for one kept document. -/
def buildCarInfo (d : CarDoc) : CarInfo :=
  let mk := d.metadata.make.getD "Unknown"
  let md := d.metadata.model.getD "Unknown"
  let baseName := mk ++ " " ++ md
  { id := d.metadata.id.getD ""
    name := match d.metadata.variant with
      | some v => if v ≠ "" then baseName ++ " " ++ v else baseName
      | Option.none => baseName
    make := mk
    model := md
    price := d.metadata.price_lakhs.getD 0
    mileage := d.metadata.mileage.getD 0
    variant := match d.metadata.variant with
      | some v => if v ≠ "" then some v else Option.none
      | Option.none => Option.none
    year := d.metadata.year
    body_type := d.metadata.body_type
    segment := d.metadata.segment
    fuel_type := d.metadata.fuel_type
    power_bhp := d.metadata.power_bhp
    airbags := d.metadata.airbags
    transmission_type := d.metadata.transmission_type
    score := d.score.map (· * 100) }

/-- The `recommended` list returned by `query_chain`: one `car_info` per
kept (first-occurrence) document, in retrieval order. -/
def queryChainRecommended (docs : List CarDoc) : List CarInfo :=
  (dedupDocs [] docs).map buildCarInfo

/-- Python `content[:200] + "..."` truncation for a source entry. -/
def truncate200 (s : String) : String :=
  if s.length > 200 then String.mk (s.toList.take 200) ++ "..." else s

/-- One `sources` entry of `query_chain` (kept documents only). -/
structure SourceInfo where
  content : String
  metadata : CarMeta
deriving DecidableEq, Repr

/-- The `sources` list returned by `query_chain`. -/
def queryChainSources (docs : List CarDoc) : List SourceInfo :=
  (dedupDocs [] docs).map (fun d => ⟨truncate200 d.page_content, d.metadata⟩)

/-! ### Session history commit (`main.py` lines 183-187) -/

/-- One (query, answer) exchange. -/
abbrev Turn : Type := String × String

/-- Python `l[-n:]`: the last `n` elements. -/
def lastN (n : Nat) (l : List α) : List α := l.drop (l.length - n)

/-- Commit one exchange: `session_histories[sid] = chat_history + [(q, a)]`,
then trim to the last 10 when the length exceeds 10 (the same
append-then-trim step appears in `ConversationalRetrievalChain.__call__`). -/
def commitTurn (hist : List Turn) (t : Turn) : List Turn :=
  let h := hist ++ [t]
  if h.length > 10 then lastN 10 h else h

/-! ### Brace-scan JSON extraction (`query_understanding.py`, `query_expansion.py`) -/

/-- Locate the first `{` and last `}` and slice between them
(`result_text[start_idx:end_idx+1]`); `none` when either brace is missing
(Python `find`/`rfind` returning `-1`). -/
def braceSlice (cs : List Char) : Option (List Char) :=
  if '{' ∈ cs then
    if '}' ∈ cs then
      let i := idxOf cs '{'
      let j := cs.length - 1 - idxOf cs.reverse '}'
      some ((cs.drop i).take (j + 1 - i))
    else Option.none
  else Option.none

/-! ### `query_understanding.understand_query_with_llm` -/

/-- The understanding result `{combined_intent, filters, search_keywords,
context_notes}`. -/
structure Understanding where
  combined_intent : String
  filters : PyDict
  search_keywords : String
  context_notes : String
deriving DecidableEq, Repr

/-- The documented fallback understanding: empty filters, the original
query as intent and keywords, an error note. -/
def fallbackU (query notes : String) : Understanding :=
  { combined_intent := query, filters := [], search_keywords := query,
    context_notes := notes }

/-- Model of `understand_query_with_llm`, with the single model call modelled as
`llmResult` and `json.loads` as `decode`.  A missing brace pair yields the
fallback directly; a decode error is caught by the enclosing `except` and
yields the fallback with an `"Error: ..."` note; a model-call error takes
the same `except` path.  No retry exists: the one `llmResult` is the only
model output consumed. -/
def understandQueryWithLLM (llmResult : Except String String)
    (decode : String → Except String Understanding) (query : String) : Understanding :=
  match llmResult with
  | .error e => fallbackU query ("Error: " ++ e)
  | .ok resultText =>
    match braceSlice (trimCl resultText.toList) with
    | Option.none => fallbackU query "Failed to parse LLM response"
    | some cs =>
      match decode (String.mk cs) with
      | .ok u => u
      | .error e => fallbackU query ("Error: " ++ e)

/-! ### `query_expansion` -/

/-- Decoded expansion JSON: `expanded_queries` and `primary_query`
(either may be absent, defaulted by `.get`). -/
structure ExpansionOut where
  expanded_queries : Option (List String)
  primary_query : Option String
deriving DecidableEq, Repr

/-- The case-insensitive first-seen dedup of `expand_query`
(`q_lower = q.lower().strip(); if q_lower and q_lower not in seen`). -/
def dedupCI (seen : List (List Char)) : List String → List String
  | [] => []
  | q :: rest =>
    let ql := trimCl (lowerCl q.toList)
    if ql ≠ [] ∧ ql ∉ seen then q :: dedupCI (ql :: seen) rest
    else dedupCI seen rest

/-- Model of `expand_query`: one model call, brace-scan decode, dedup, top 3; on a
model error or unparsable output return `[original_query]`. -/
def expandQuery (llmResult : Except Unit String)
    (decode : String → Option ExpansionOut) (originalQuery : String) : List String :=
  match llmResult with
  | .error _ => [originalQuery]
  | .ok responseText =>
    match braceSlice (trimCl responseText.toList) with
    | Option.none => [originalQuery]
    | some cs =>
      match decode (String.mk cs) with
      | Option.none => [originalQuery]
      | some exp =>
        let expandedQueries := exp.expanded_queries.getD [originalQuery]
        let primaryQuery := exp.primary_query.getD originalQuery
        (dedupCI [] (primaryQuery :: expandedQueries)).take 3

/-- Model of `get_best_expanded_query`: `expanded[0] if expanded else original_query`. -/
def getBestExpandedQuery (llmResult : Except Unit String)
    (decode : String → Option ExpansionOut) (originalQuery : String) : String :=
  (expandQuery llmResult decode originalQuery).headD originalQuery

/-- The vague-phrase set of `main.py`. -/
def vaguePhrases : List String := ["aur batao", "tell me more", "any other", "haan"]

/-- The expansion trigger of `main.py`:
`any(phrase in request.query.lower() for phrase in [...])`. -/
def triggersExpansion (query : String) : Bool :=
  vaguePhrases.any (fun p => containsCl p.toList (lowerCl query.toList))

/-! ### `refiner.refine_response_with_llm` -/

/-- Model of `refine_response_with_llm`, with the provider lookup and its call
collapsed into `providerResult`: `none` models `get_refinement_llm()`
returning `None`, `some (.error e)` a raising provider call (caught by the
enclosing `except`), `some (.ok s)` a successful call (stripped). In the
first two cases the unrefined `rag_response` is returned verbatim. -/
def refineResponseWithLLM (providerResult : Option (Except String String))
    (ragResponse : String) : String :=
  match providerResult with
  | Option.none => ragResponse
  | some (.error _) => ragResponse
  | some (.ok refined) => String.mk (trimCl refined.toList)

/-! ### The `/chat` orchestrator (`main.py`) -/

/-- The `query_chain` result consumed by `chat`. -/
structure RagResult where
  answer : String
  recommended : List CarInfo
  sources : List SourceInfo
deriving DecidableEq, Repr

/-- The `/chat` response body. -/
structure ChatResponse where
  answer : String
  recommended : List CarInfo
  sources : List SourceInfo
deriving DecidableEq, Repr

/-- The `/chat` endpoint for one turn of one session.  External stages are
parameters: `understanding` is the (total, never-raising) result of
`understand_query_with_llm`; `expLLM`/`expDecode` feed query expansion;
`runChain` is chain creation plus `query_chain` on the merged filters and
optimized query (the turn's fatal stage); `providerResult` feeds
refinement.  Returns the response or the surfaced error, paired with the
session history after the turn. -/
def chatEndpoint (query : String) (requestFilters : Option PyDict) (hist : List Turn)
    (understanding : Understanding)
    (expLLM : Except Unit String) (expDecode : String → Option ExpansionOut)
    (runChain : PyDict → String → Except String RagResult)
    (providerResult : Option (Except String String)) :
    Except String ChatResponse × List Turn :=
  let autoFilters := understanding.filters
  let searchKeywords := understanding.search_keywords
  let finalFilters :=
    match requestFilters with
    | some rf => if rf.isEmpty then autoFilters else pyUpdate autoFilters rf
    | Option.none => autoFilters
  let optimizedQuery :=
    if triggersExpansion query then
      let expanded := getBestExpandedQuery expLLM expDecode searchKeywords
      if expanded ≠ "" ∧ expanded ≠ searchKeywords then expanded else searchKeywords
    else searchKeywords
  match runChain finalFilters optimizedQuery with
  | .error e => (.error ("Error processing request: " ++ e), hist)
  | .ok result =>
    let refined := refineResponseWithLLM providerResult result.answer
    let newHist := commitTurn hist (query, refined)
    (.ok { answer := refined, recommended := result.recommended,
           sources := result.sources }, newHist)

/-! ### Concrete documents for the spec's dedup example -/

/-- The first Nexon variant of the spec's dedup example. -/
def nexonXZ : CarDoc :=
  { metadata := { make := some "Tata", model := some "Nexon", variant := some "XZ" } }

/-- The second Nexon variant of the spec's dedup example. -/
def nexonXM : CarDoc :=
  { metadata := { make := some "Tata", model := some "Nexon", variant := some "XM" } }

/-- The Punch of the spec's dedup example. -/
def punch : CarDoc :=
  { metadata := { make := some "Tata", model := some "Punch" } }

/-! ## Helper lemmas -/

theorem dictGet_eq_none_of_not_mem (d : PyDict) (k : String)
    (h : k ∉ d.map Prod.fst) : dictGet d k = Option.none := by
  induction d with
  | nil => rfl
  | cons kv rest ih =>
    simp only [List.map_cons, List.mem_cons, not_or] at h
    simp only [dictGet]
    rw [if_neg (fun he => h.1 he.symm)]
    exact ih h.2

theorem dictGet_setItem (d : PyDict) (k : String) (v : FVal) (k' : String) :
    dictGet (setItem d k v) k' = if k' = k then some v else dictGet d k' := by
  induction d with
  | nil =>
    by_cases h : k' = k
    · simp [setItem, dictGet, h]
    · simp [setItem, dictGet, h, Ne.symm h]
  | cons kv rest ih =>
    obtain ⟨a, w⟩ := kv
    by_cases hak : a = k
    · subst hak
      by_cases h : k' = a
      · subst h
        simp [setItem, dictGet]
      · simp [setItem, dictGet, h, Ne.symm h]
    · by_cases hax : a = k'
      · subst hax
        simp [setItem, dictGet, hak]
      · simp [setItem, dictGet, hak, hax, ih]

theorem dictGet_pyUpdate (e : PyDict) (a : PyDict) (k : String)
    (h : (e.map Prod.fst).Nodup) :
    dictGet (pyUpdate a e) k = optOr (dictGet e k) (dictGet a k) := by
  induction e generalizing a with
  | nil => simp [pyUpdate, dictGet, optOr]
  | cons kv rest ih =>
    obtain ⟨k₀, v₀⟩ := kv
    simp only [List.map_cons, List.nodup_cons] at h
    have hstep : pyUpdate a ((k₀, v₀) :: rest) = pyUpdate (setItem a k₀ v₀) rest := rfl
    rw [hstep, ih _ h.2, dictGet_setItem]
    simp only [dictGet]
    by_cases hk : k = k₀
    · subst hk
      rw [if_pos rfl, if_pos rfl]
      have hnone : dictGet rest k = Option.none :=
        dictGet_eq_none_of_not_mem _ _ h.1
      rw [hnone]
      rfl
    · rw [if_neg hk, if_neg (fun he => hk he.symm)]

theorem optOr_absorb (x y : Option FVal) : optOr x (optOr x y) = optOr x y := by
  cases x <;> rfl

/-- Python `l[-10:]` keeps at most 10 elements. -/
theorem lastN_length_le (n : Nat) (l : List α) : (lastN n l).length ≤ n := by
  simp only [lastN, List.length_drop]
  omega

theorem lastN_of_length_le (n : Nat) (l : List α) (h : l.length ≤ n) :
    lastN n l = l := by
  simp only [lastN, Nat.sub_eq_zero_of_le h, List.drop_zero]

theorem commitTurn_eq_lastN (hist : List Turn) (t : Turn) :
    commitTurn hist t = lastN 10 (hist ++ [t]) := by
  simp only [commitTurn]
  split
  · rfl
  · next hle =>
    rw [lastN_of_length_le]
    omega

theorem lastN_append_absorb (n : Nat) (l ts : List α) :
    lastN n (lastN n l ++ ts) = lastN n (l ++ ts) := by
  rcases Nat.le_total l.length n with h | h
  · rw [lastN_of_length_le n l h]
  · simp only [lastN, List.length_append, List.length_drop]
    have h1 : l.length - (l.length - n) + ts.length - n
        = ts.length := by omega
    have h2 : l.length + ts.length - n = (l.length - n) + ts.length := by omega
    rw [h1, h2, ← List.drop_drop,
      List.drop_append_of_le_length (by omega : l.length - n ≤ l.length)]

theorem foldl_commitTurn (ts : List Turn) (h0 : List Turn) (hle : h0.length ≤ 10) :
    List.foldl commitTurn h0 ts = lastN 10 (h0 ++ ts) := by
  induction ts generalizing h0 with
  | nil => rw [List.append_nil, lastN_of_length_le 10 h0 hle, List.foldl_nil]
  | cons t rest ih =>
    rw [List.foldl_cons]
    have hc : (commitTurn h0 t).length ≤ 10 := by
      rw [commitTurn_eq_lastN]; exact lastN_length_le _ _
    rw [ih _ hc, commitTurn_eq_lastN, lastN_append_absorb]
    simp

theorem dedupDocs_sublist (docs : List CarDoc) (seen : List (List Char)) :
    List.Sublist (dedupDocs seen docs) docs := by
  induction docs generalizing seen with
  | nil => exact List.Sublist.refl _
  | cons d rest ih =>
    simp only [dedupDocs]
    split
    · exact (ih seen).cons d
    · exact (ih (docKey d :: seen)).cons₂ d

theorem mem_dedupDocs_not_seen (docs : List CarDoc) (seen : List (List Char))
    (d : CarDoc) (h : d ∈ dedupDocs seen docs) : docKey d ∉ seen := by
  induction docs generalizing seen with
  | nil => simp [dedupDocs] at h
  | cons x rest ih =>
    simp only [dedupDocs] at h
    split at h
    · exact ih seen h
    · next hx =>
      rcases List.mem_cons.mp h with rfl | hmem
      · exact hx
      · have := ih _ hmem
        simp only [List.mem_cons, not_or] at this
        exact this.2

theorem dedupDocs_keys_nodup (docs : List CarDoc) (seen : List (List Char)) :
    ((dedupDocs seen docs).map docKey).Nodup := by
  induction docs generalizing seen with
  | nil => simp [dedupDocs]
  | cons d rest ih =>
    simp only [dedupDocs]
    split
    · exact ih seen
    · simp only [List.map_cons, List.nodup_cons]
      refine ⟨?_, ih (docKey d :: seen)⟩
      intro hmem
      rcases List.mem_map.mp hmem with ⟨d', hd', hkey⟩
      have := mem_dedupDocs_not_seen _ _ _ hd'
      simp only [List.mem_cons, not_or] at this
      exact this.1 hkey

theorem dedupDocs_find? (docs : List CarDoc) (seen : List (List Char))
    (k : List Char) (hk : k ∉ seen) :
    (dedupDocs seen docs).find? (fun d => decide (docKey d = k)) =
      docs.find? (fun d => decide (docKey d = k)) := by
  induction docs generalizing seen with
  | nil => rfl
  | cons d rest ih =>
    simp only [dedupDocs]
    split
    · next hd =>
      have hne : docKey d ≠ k := fun he => hk (he ▸ hd)
      rw [ih seen hk]
      simp only [List.find?]
      rw [decide_eq_false hne]
    · next hd =>
      by_cases hke : docKey d = k
      · simp only [List.find?, decide_eq_true hke]
      · simp only [List.find?, decide_eq_false hke]
        refine ih (docKey d :: seen) ?_
        simp only [List.mem_cons, not_or]
        exact ⟨fun he => hke he.symm, hk⟩

/-! ## Claim theorems -/

/-- C1: `query_chain` emits one recommendation per canonical
lowercase/underscore-normalized (make, model) key: the kept documents have
pairwise-distinct keys, appear in their original relative positions (a
sublist of the input), and for every key the kept representative is
exactly the first input document with that key (`find?` agreement, which
also gives every input key a representative); the spec's concrete example
yields 2 recommendations, the first Nexon variant and the Punch. -/
theorem c1_dedup_one_recommendation_per_key :
    (∀ docs : List CarDoc, ((dedupDocs [] docs).map docKey).Nodup)
  ∧ (∀ docs : List CarDoc, List.Sublist (dedupDocs [] docs) docs)
  ∧ (∀ (docs : List CarDoc) (k : List Char),
      (dedupDocs [] docs).find? (fun d => decide (docKey d = k)) =
        docs.find? (fun d => decide (docKey d = k)))
  ∧ (∀ docs : List CarDoc,
      queryChainRecommended docs = (dedupDocs [] docs).map buildCarInfo)
  ∧ queryChainRecommended [nexonXZ, nexonXM, punch] =
      [buildCarInfo nexonXZ, buildCarInfo punch]
  ∧ (queryChainRecommended [nexonXZ, nexonXM, punch]).length = 2
  ∧ (queryChainRecommended [nexonXZ, nexonXM, punch]).map CarInfo.name =
      ["Tata Nexon XZ", "Tata Punch"] := by
  refine ⟨fun docs => dedupDocs_keys_nodup docs [],
          fun docs => dedupDocs_sublist docs [],
          fun docs k => dedupDocs_find? docs [] k (by simp),
          fun docs => rfl, by decide, by decide, by decide⟩

/-- C2: for every session and every sequence of committed turns, the
stored session history has length at most 10 exchanges; when the bound is
exceeded the oldest exchange is evicted first, the newest 10 (a suffix of
the full turn sequence) being retained. -/
theorem c2_session_history_bounded_fifo :
    ∀ ts : List Turn,
      (List.foldl commitTurn [] ts).length ≤ 10
    ∧ List.foldl commitTurn [] ts = lastN 10 ts
    ∧ List.foldl commitTurn [] ts <:+ ts := by
  intro ts
  have h : List.foldl commitTurn [] ts = lastN 10 ts := by
    have := foldl_commitTurn ts [] (by simp)
    simpa using this
  refine ⟨?_, h, ?_⟩
  · rw [h]; exact lastN_length_le _ _
  · rw [h]
    exact ⟨ts.take (ts.length - 10), List.take_append_drop _ _⟩

/-- C3: with a non-empty predicate, a successful search returns its
results; a search failure signalling an unindexed field (the source's
substring test on the error message) causes exactly one retry with the
predicate removed, whose outcome — results or error — is returned as is;
any other failure propagates unchanged. -/
theorem c3_retrieval_fail_open :
    (∀ (pts : List CarDoc) (pred : List QCondition),
        getRelevantPoints (fun _ => .ok pts) (some pred) = .ok pts)
  ∧ (∀ (msg : String) (pred : List QCondition)
       (retry : Except String (List CarDoc)),
        getRelevantPoints
          (fun o => match o with
            | some _ => .error msg
            | Option.none => retry)
          (some pred) =
          (if isUnindexedSignal msg then retry else .error msg))
  ∧ isUnindexedSignal "Index required for field price_lakhs" = true
  ∧ isUnindexedSignal "connection refused" = false := by
  refine ⟨fun pts pred => rfl, fun msg pred retry => rfl, by decide, by decide⟩

/-- C6: when the refinement provider is unavailable (`None`) or its call
raises, the turn's answer is the unrefined synthesized answer verbatim and
the exchange is still committed to the session history. -/
theorem c6_refinement_failure_non_fatal :
    (∀ (query : String) (rf : Option PyDict) (hist : List Turn)
       (u : Understanding) (expLLM : Except Unit String)
       (expDecode : String → Option ExpansionOut) (res : RagResult),
        chatEndpoint query rf hist u expLLM expDecode
            (fun _ _ => .ok res) Option.none =
          (.ok { answer := res.answer, recommended := res.recommended,
                 sources := res.sources },
           commitTurn hist (query, res.answer)))
  ∧ (∀ (query : String) (rf : Option PyDict) (hist : List Turn)
       (u : Understanding) (expLLM : Except Unit String)
       (expDecode : String → Option ExpansionOut) (res : RagResult)
       (e : String),
        chatEndpoint query rf hist u expLLM expDecode
            (fun _ _ => .ok res) (some (.error e)) =
          (.ok { answer := res.answer, recommended := res.recommended,
                 sources := res.sources },
           commitTurn hist (query, res.answer))) :=
  ⟨fun _ _ _ _ _ _ _ => rfl, fun _ _ _ _ _ _ _ _ => rfl⟩

/-- C8 (amended): an exception escaping a fatal stage leaves the session
history unmodified, and the surfaced error detail is the fixed text
`"Error processing request: "` followed by the internal error text — the
internal text is therefore exposed to the caller, not hidden. -/
theorem c8_turn_abort_amended :
    ∀ (query : String) (rf : Option PyDict) (hist : List Turn)
      (u : Understanding) (expLLM : Except Unit String)
      (expDecode : String → Option ExpansionOut) (e : String)
      (providerResult : Option (Except String String)),
      chatEndpoint query rf hist u expLLM expDecode
          (fun _ _ => .error e) providerResult =
        (.error ("Error processing request: " ++ e), hist) :=
  fun _ _ _ _ _ _ _ _ => rfl

/-- C8 counterexample: at a concrete turn whose chain stage raises
`"boom"`, the surfaced error detail contains the internal error text
`"boom"` verbatim (and differs from the detail surfaced for another
internal error), refuting the claim that the caller receives a generic
error that never exposes the internal error text. -/
theorem c8_error_detail_not_generic :
    (chatEndpoint "q" Option.none [] (fallbackU "q" "") (.error ())
        (fun _ => Option.none) (fun _ _ => .error "boom") Option.none).1 =
      .error "Error processing request: boom"
  ∧ containsCl "boom".toList "Error processing request: boom".toList = true
  ∧ ("Error processing request: boom" : String) ≠ "Error processing request: bang" := by
  refine ⟨rfl, by decide, by decide⟩

/-- C4: the filter merge is the shallow dict merge
`merged = auto.copy(); merged.update(explicit)` — key-by-key the explicit
value wins where present, the auto value survives elsewhere; re-applying
the same explicit filters to the merged result changes no binding; and the
spec's example `merge({a:1,b:2},{b:3}) = {a:1,b:3}` holds exactly. -/
theorem c4_filter_merge_last_write_wins :
    (∀ (autoF explicitF : PyDict), (explicitF.map Prod.fst).Nodup →
        (∀ k, dictGet (pyUpdate autoF explicitF) k =
          optOr (dictGet explicitF k) (dictGet autoF k))
      ∧ (∀ k, dictGet (pyUpdate (pyUpdate autoF explicitF) explicitF) k =
          dictGet (pyUpdate autoF explicitF) k)
      ∧ (∀ k, dictGet (mergeFilters autoF (some explicitF)) k =
          optOr (dictGet explicitF k) (dictGet autoF k)))
  ∧ pyUpdate [("a", FVal.scalar (.num 1)), ("b", FVal.scalar (.num 2))]
      [("b", FVal.scalar (.num 3))] =
      [("a", FVal.scalar (.num 1)), ("b", FVal.scalar (.num 3))] := by
  refine ⟨fun autoF explicitF h => ⟨fun k => dictGet_pyUpdate _ _ _ h, ?_, ?_⟩, by decide⟩
  · intro k
    rw [dictGet_pyUpdate _ _ _ h, dictGet_pyUpdate _ _ _ h, optOr_absorb]
  · intro k
    rcases he : explicitF with _ | ⟨kv, rest⟩
    · simp [mergeFilters, dictGet, optOr]
    · rw [← he]
      have hne : explicitF.isEmpty = false := by rw [he]; rfl
      simp only [mergeFilters, hne, Bool.false_eq_true, if_false]
      exact dictGet_pyUpdate _ _ _ h

/-- C4 witness: the general merge theorem applied at the spec's example
dicts, with the unique-keys hypothesis discharged by computation. -/
theorem c4_filter_merge_witness :
    (([("b", FVal.scalar (.num 3))] : PyDict).map Prod.fst).Nodup
  ∧ dictGet (pyUpdate [("a", FVal.scalar (.num 1)), ("b", FVal.scalar (.num 2))]
        [("b", FVal.scalar (.num 3))]) "b" =
      optOr (dictGet [("b", FVal.scalar (.num 3))] "b")
        (dictGet [("a", FVal.scalar (.num 1)), ("b", FVal.scalar (.num 2))] "b") :=
  ⟨by decide,
   (c4_filter_merge_last_write_wins.1
      [("a", FVal.scalar (.num 1)), ("b", FVal.scalar (.num 2))]
      [("b", FVal.scalar (.num 3))] (by decide)).1 "b"⟩

/-- C5: when the understanding model's response lacks a brace pair
(`braceSlice` is `none` exactly when `'{'` or `'}'` is missing) or the
brace-delimited substring fails to decode, `understand_query_with_llm`
returns the fallback with empty filters and the original query as intent
and keywords, consuming the single model response with no retry and
raising nothing (the function is total). -/
theorem c5_understand_fallback_on_parse_failure :
    ∀ (decode : String → Except String Understanding) (query rawText : String),
      (braceSlice (trimCl rawText.toList) = Option.none →
        understandQueryWithLLM (.ok rawText) decode query =
          fallbackU query "Failed to parse LLM response")
    ∧ (∀ (cs : List Char) (e : String),
        braceSlice (trimCl rawText.toList) = some cs →
        decode (String.mk cs) = .error e →
        understandQueryWithLLM (.ok rawText) decode query =
          fallbackU query ("Error: " ++ e))
    ∧ (∀ n : String,
        (fallbackU query n).filters = [] ∧
        (fallbackU query n).combined_intent = query ∧
        (fallbackU query n).search_keywords = query)
    ∧ (∀ cs : List Char, braceSlice cs = Option.none ↔ ('{' ∉ cs ∨ '}' ∉ cs)) := by
  intro decode query rawText
  refine ⟨?_, ?_, fun n => ⟨rfl, rfl, rfl⟩, ?_⟩
  · intro h
    simp only [understandQueryWithLLM, h]
  · intro cs e h hd
    simp only [understandQueryWithLLM, h, hd]
  · intro cs
    simp only [braceSlice]
    split
    · split
      · simp_all
      · simp_all
    · simp_all

/-- C5 witness: the fallback theorem applied to a concrete brace-free
model response. -/
theorem c5_understand_fallback_witness :
    braceSlice (trimCl "model said nothing structured".toList) = Option.none
  ∧ understandQueryWithLLM (.ok "model said nothing structured")
      (fun _ => .error "boom") "SUV under 15 lakhs" =
      fallbackU "SUV under 15 lakhs" "Failed to parse LLM response" :=
  ⟨by decide,
   (c5_understand_fallback_on_parse_failure (fun _ => .error "boom")
      "SUV under 15 lakhs" "model said nothing structured").1 (by decide)⟩

/-- C7: query expansion is triggered exactly when the raw utterance,
lowercased, contains one of the fixed vague phrases as a substring
(so "haan aur batao" triggers and "SUV under 15 lakhs" does not), and a
failing or unparsable expansion model call makes the unexpanded keyword
string the sole candidate, which `get_best_expanded_query` then returns. -/
theorem c7_expansion_trigger :
    (∀ q : String, triggersExpansion q = true ↔
        ∃ p ∈ vaguePhrases, p.toList <:+: lowerCl q.toList)
  ∧ triggersExpansion "haan aur batao" = true
  ∧ triggersExpansion "SUV under 15 lakhs" = false
  ∧ (∀ (decode : String → Option ExpansionOut) (kw : String),
        expandQuery (.error ()) decode kw = [kw])
  ∧ (∀ (decode : String → Option ExpansionOut) (kw : String),
        getBestExpandedQuery (.error ()) decode kw = kw)
  ∧ (∀ (resp kw : String),
        expandQuery (.ok resp) (fun _ => Option.none) kw = [kw])
  ∧ (∀ (resp kw : String),
        getBestExpandedQuery (.ok resp) (fun _ => Option.none) kw = kw) := by
  refine ⟨?_, by decide, by decide, fun decode kw => rfl, fun decode kw => rfl, ?_, ?_⟩
  · intro q
    simp [triggersExpansion, List.any_eq_true, containsCl]
  · intro resp kw
    simp only [expandQuery]
    rcases h : braceSlice (trimCl resp.toList) with _ | cs <;> simp
  · intro resp kw
    simp only [getBestExpandedQuery, expandQuery]
    rcases h : braceSlice (trimCl resp.toList) with _ | cs <;> simp

theorem qdrantConditions_eq_nil_of_unrecognized (d : PyDict)
    (h : ∀ k ∈ d.map Prod.fst, k ∉ recognizedFilterKeys) :
    qdrantConditions d = [] := by
  have hg : ∀ k, k ∈ recognizedFilterKeys → dictGet d k = Option.none :=
    fun k hk => dictGet_eq_none_of_not_mem d k (fun hm => h k hm hk)
  have e1 := hg "price_max" (by decide)
  have e2 := hg "price_lakhs_max" (by decide)
  have e3 := hg "price_min" (by decide)
  have e4 := hg "price_lakhs_min" (by decide)
  have e5 := hg "body_type" (by decide)
  have e6 := hg "fuel_type" (by decide)
  have e7 := hg "segment" (by decide)
  have e8 := hg "year_min" (by decide)
  have e9 := hg "year_max" (by decide)
  have e10 := hg "mileage_min" (by decide)
  have e11 := hg "power_bhp_min" (by decide)
  have e12 := hg "transmission_type" (by decide)
  have e13 := hg "airbags_min" (by decide)
  have e14 := hg "abs" (by decide)
  have e15 := hg "esc" (by decide)
  have e16 := hg "sunroof" (by decide)
  have e17 := hg "cruise_control" (by decide)
  have e18 := hg "apple_carplay" (by decide)
  have e19 := hg "adaptive_cruise" (by decide)
  have e20 := hg "lane_keep_assist" (by decide)
  have e21 := hg "keyless_entry" (by decide)
  have e22 := hg "connected_tech" (by decide)
  have e23 := hg "parking_camera" (by decide)
  simp [qdrantConditions, matchCondsFor, pyOr, boolFilterKeys,
    e1, e2, e3, e4, e5, e6, e7, e8, e9, e10, e11, e12, e13, e14, e15, e16,
    e17, e18, e19, e20, e21, e22, e23]

theorem buildQdrantFilter_ne_some_nil (d : PyDict) :
    buildQdrantFilter d ≠ some [] := by
  unfold buildQdrantFilter
  split
  · simp
  · split
    · simp
    · next hne =>
      intro hc
      injection hc with hc
      rw [hc] at hne
      simp at hne

theorem buildQdrantFilter_unrecognized_none (d : PyDict)
    (h : ∀ k ∈ d.map Prod.fst, k ∉ recognizedFilterKeys) :
    buildQdrantFilter d = Option.none := by
  rw [buildQdrantFilter, qdrantConditions_eq_nil_of_unrecognized d h]
  simp

theorem collapse_list_body_type (v : FScalar) (l : List FScalar) :
    buildQdrantFilter [("body_type", FVal.list (v :: l))] =
      buildQdrantFilter [("body_type", FVal.scalar v)] := by
  cases htv : truthyS v <;>
    simp +decide [buildQdrantFilter, qdrantConditions, matchCondsFor, dictGet,
      pyOr, collapseList, truthy, htv, boolFilterKeys]

/-- C9: `build_qdrant_filter` maps each recognized field to a range or
equality condition (exercised across all fields by the big example),
collapses a list-valued field to its first element, omits dicts holding
only unrecognized keys entirely, includes each boolean feature flag
exactly when its value is truthy, and never returns an empty predicate —
an empty dict, or one producing no conditions, yields `None`. -/
theorem c9_filter_translation :
    buildQdrantFilter [] = Option.none
  ∧ (∀ d : PyDict, buildQdrantFilter d ≠ some [])
  ∧ (∀ d : PyDict, (∀ k ∈ d.map Prod.fst, k ∉ recognizedFilterKeys) →
        buildQdrantFilter d = Option.none)
  ∧ (∀ (v : FScalar) (l : List FScalar),
        buildQdrantFilter [("body_type", FVal.list (v :: l))] =
          buildQdrantFilter [("body_type", FVal.scalar v)])
  ∧ (∀ k ∈ boolFilterKeys,
        buildQdrantFilter [(k, FVal.scalar (.bool false))] = Option.none ∧
        buildQdrantFilter [(k, FVal.scalar (.bool true))] =
          some [QCondition.matchBool k true])
  ∧ buildQdrantFilter
      [("price_max", FVal.scalar (.num 15)), ("price_min", FVal.scalar (.num 5)),
       ("body_type", FVal.scalar (.str "SUV")), ("fuel_type", FVal.scalar (.str "Diesel")),
       ("segment", FVal.scalar (.str "Premium")), ("year_min", FVal.scalar (.num 2020)),
       ("year_max", FVal.scalar (.num 2024)), ("mileage_min", FVal.scalar (.num 18)),
       ("power_bhp_min", FVal.scalar (.num 100)),
       ("transmission_type", FVal.scalar (.str "Automatic")),
       ("airbags_min", FVal.scalar (.num 6)), ("sunroof", FVal.scalar (.bool true))] =
      some [QCondition.rangeLte "price_lakhs" 15, QCondition.rangeGte "price_lakhs" 5,
            QCondition.matchStr "body_type" "SUV", QCondition.matchStr "fuel_type" "Diesel",
            QCondition.matchStr "segment" "Premium", QCondition.rangeGte "year" 2020,
            QCondition.rangeLte "year" 2024, QCondition.rangeGte "mileage" 18,
            QCondition.rangeGte "power_bhp" 100,
            QCondition.matchStr "transmission_type" "Automatic",
            QCondition.rangeGte "airbags" 6, QCondition.matchBool "sunroof" true] := by
  refine ⟨by decide, buildQdrantFilter_ne_some_nil,
    buildQdrantFilter_unrecognized_none, collapse_list_body_type,
    by decide, by decide⟩

/-- C9 witness: a dict holding only the unrecognized key `"custom_flag"`
(with a truthy value) produces no predicate. -/
theorem c9_filter_translation_witness :
    (∀ k ∈ ([("custom_flag", FVal.scalar (.bool true))] : PyDict).map Prod.fst,
        k ∉ recognizedFilterKeys)
  ∧ buildQdrantFilter [("custom_flag", FVal.scalar (.bool true))] = Option.none :=
  ⟨by decide, c9_filter_translation.2.2.1 _ (by decide)⟩

/-- C10: a falsy (zero) `price_max`, `price_lakhs_max`, `price_min` or
`price_lakhs_min` emits no price condition at all — a zero bound behaves
exactly like an absent bound (other filters still translate), never like
the constraint price ≤ 0; a non-zero bound does emit the condition. -/
theorem c10_zero_price_bound_ignored :
    buildQdrantFilter [("price_max", FVal.scalar (.num 0))] = Option.none
  ∧ buildQdrantFilter [("price_lakhs_max", FVal.scalar (.num 0))] = Option.none
  ∧ buildQdrantFilter [("price_min", FVal.scalar (.num 0))] = Option.none
  ∧ buildQdrantFilter [("price_lakhs_min", FVal.scalar (.num 0))] = Option.none
  ∧ (∀ q : ℚ,
      buildQdrantFilter [("price_max", FVal.scalar (.num q)),
                         ("body_type", FVal.scalar (.str "SUV"))] =
        if q = 0 then some [QCondition.matchStr "body_type" "SUV"]
        else some [QCondition.rangeLte "price_lakhs" q,
                   QCondition.matchStr "body_type" "SUV"])
  ∧ buildQdrantFilter [("price_min", FVal.scalar (.num 0)),
                       ("mileage_min", FVal.scalar (.num 18))] =
      some [QCondition.rangeGte "mileage" 18] := by
  refine ⟨by decide, by decide, by decide, by decide, ?_, by decide⟩
  intro q
  by_cases hq : q = 0 <;>
    simp +decide [buildQdrantFilter, qdrantConditions, matchCondsFor, dictGet,
      pyOr, collapseList, truthy, truthyS, fvalFloat, hq, boolFilterKeys]

end AutoAssist
